import Mathlib

/-!
Verification development for the morning-brief ingestion core.

The TypeScript sources are shallowly embedded:
strings are modelled as `List Char`, JS `Map`s as association lists,
the Vercel KV store as explicit state records, asynchronous
fetch/parse calls as `Option`-valued oracles passed in as parameters,
and ISO date strings (where only their ordering and calendar-day
truncation matter, in `lib/storage.ts`) as natural-number timestamps
in milliseconds together with `dayOf` for the `YYYY-MM-DD` prefix.
-/

namespace MorningBrief

/-- Character class of the JS regex `\s` (the Unicode space separators
beyond NBSP are omitted; no input in this development contains them). -/
def jsWs (c : Char) : Bool :=
  c = ' ' || c = '\t' || c = '\n' || c = '\r' || c = '\x0b' || c = '\x0c' || c = ' '

/-- JS `String.prototype.trim`: strip whitespace from both ends. -/
def jsTrim (cs : List Char) : List Char :=
  ((cs.dropWhile (fun c => jsWs c)).reverse.dropWhile (fun c => jsWs c)).reverse

/-- JS `startsWith` on character lists: the first list is a prefix of the second. -/
def startsWithL : List Char → List Char → Bool
  | [], _ => true
  | _ :: _, [] => false
  | a :: as, b :: bs => a = b && startsWithL as bs

/-- JS `String.prototype.includes`: `jsIncludes needle hay` is true when
`needle` occurs contiguously inside `hay`. -/
def jsIncludes (needle : List Char) : List Char → Bool
  | [] => needle.isEmpty
  | c :: rest => startsWithL needle (c :: rest) || jsIncludes needle rest

/-- Greedy tail of a match of the separator regex `\n\s*\n` of
`chunkTextForRAG`: after an initial newline has been consumed, return the
rest of the input after the last newline inside the following maximal
whitespace run (the greedy `\s*` backtracks to the last `\n`), or `none`
when that run contains no further newline. -/
def paraSepTail : List Char → Option (List Char) → Option (List Char)
  | [], best => best
  | c :: rest, best =>
    if c = '\n' then paraSepTail rest (some rest)
    else if jsWs c then paraSepTail rest best
    else best

/-- Worker for `splitParas`; `fuel` dominates the number of characters
consumed, so `fuel = cs.length` always suffices. -/
def splitParasGo : Nat → List Char → List Char → List (List Char)
  | 0, _, acc => [acc.reverse]
  | _ + 1, [], acc => [acc.reverse]
  | fuel + 1, c :: rest, acc =>
    if c = '\n' then
      match paraSepTail rest none with
      | some rest2 => acc.reverse :: splitParasGo fuel rest2 []
      | none => splitParasGo fuel rest (c :: acc)
    else splitParasGo fuel rest (c :: acc)

/-- JS `text.split(/\n\s*\n/)` from `chunkTextForRAG`. -/
def splitParas (cs : List Char) : List (List Char) :=
  splitParasGo cs.length cs []

/-- Worker for `splitWsRuns`. -/
def splitWsGo : Nat → List Char → List Char → List (List Char)
  | 0, _, acc => [acc.reverse]
  | _ + 1, [], acc => [acc.reverse]
  | fuel + 1, c :: rest, acc =>
    if jsWs c then acc.reverse :: splitWsGo fuel (rest.dropWhile (fun d => jsWs d)) []
    else splitWsGo fuel rest (c :: acc)

/-- JS `query.split(/\s+/)` from `getRelevantPdfChunks`: split on maximal
whitespace runs, keeping the empty pieces JS produces at the ends. -/
def splitWsRuns (cs : List Char) : List (List Char) :=
  splitWsGo cs.length cs []

/-- Test for the lookbehind class `[.!?]` of the sentence separator regex. -/
def sentPunct : Option Char → Bool
  | some c => c = '.' || c = '!' || c = '?'
  | none => false

/-- Worker for `splitSentences`; `prev` is the character preceding the
current position (`none` both at the start of the string and right after a
separator, where the preceding character is whitespace and hence not in
`[.!?]` either). -/
def splitSentGo : Nat → Option Char → List Char → List Char → List (List Char)
  | 0, _, _, acc => [acc.reverse]
  | _ + 1, _, [], acc => [acc.reverse]
  | fuel + 1, prev, c :: rest, acc =>
    if jsWs c && sentPunct prev then
      acc.reverse :: splitSentGo fuel none (rest.dropWhile (fun d => jsWs d)) []
    else splitSentGo fuel (some c) rest (c :: acc)

/-- JS `chunk.split(/(?<=[.!?])\s+/)` from `chunkTextForRAG`: split on
maximal whitespace runs immediately preceded by `.`, `!` or `?`. -/
def splitSentences (cs : List Char) : List (List Char) :=
  splitSentGo cs.length none cs []

/-- JS `Array.prototype.join` with a separator. -/
def joinSep (sep : List Char) : List (List Char) → List Char
  | [] => []
  | [x] => x
  | x :: xs => x ++ sep ++ joinSep sep xs

/-- JS `slice(-n)` on a list: the last `n` elements. -/
def takeLast {α : Type} (n : Nat) (l : List α) : List α :=
  l.drop (l.length - n)

/-- Sentence-accumulation loop of `chunkTextForRAG` (the body run when an
accumulated chunk exceeds 1.5 times the target size): re-split at sentence
boundaries with a two-sentence overlap.  Returns the grown chunk list and
the final `sentenceChunk`. -/
def sentenceAccum (chunkSize overlap : Nat) :
    List (List Char) → List (List Char) → List Char → List (List Char) × List Char
  | [], chunks, sc => (chunks, sc)
  | sentence :: rest, chunks, sc =>
    if sc.length + sentence.length + 1 > chunkSize && sc.length > 0 then
      let chunks2 := chunks ++ [jsTrim sc]
      let sc2 :=
        if overlap > 0 then
          joinSep [' '] (takeLast 2 (splitSentences sc)) ++ ' ' :: sentence
        else sentence
      sentenceAccum chunkSize overlap rest chunks2 sc2
    else
      sentenceAccum chunkSize overlap rest chunks
        (if sc.length > 0 then sc ++ ' ' :: sentence else sentence)

/-- Paragraph-accumulation loop of `chunkTextForRAG`: close the current
chunk when the next paragraph would overflow `chunkSize`, seed the next
chunk with the trailing `overlap` characters, and re-split oversized
chunks at sentence boundaries.  Returns the chunk list and the final
`currentChunk`. -/
def paraAccum (chunkSize overlap : Nat) :
    List (List Char) → List (List Char) → List Char → List (List Char) × List Char
  | [], chunks, cc => (chunks, cc)
  | p :: rest, chunks, cc =>
    let tp := jsTrim p
    let step :=
      if cc.length + tp.length + 1 > chunkSize && cc.length > 0 then
        (chunks ++ [jsTrim cc],
          if overlap > 0 && cc.length > overlap then
            takeLast overlap cc ++ '\n' :: '\n' :: tp
          else tp)
      else
        (chunks, if cc.length > 0 then cc ++ '\n' :: '\n' :: tp else tp)
    let step2 :=
      if 2 * step.2.length > 3 * chunkSize then
        sentenceAccum chunkSize overlap (splitSentences step.2) step.1 []
      else step
    paraAccum chunkSize overlap rest step2.1 step2.2

/-- Chunk list accumulated by `chunkTextForRAG` before the final
minimum-length filter (the local `chunks` array at the point where the
function applies the 50-character floor). -/
def chunksBeforeFilter (text : List Char) (chunkSize overlap : Nat) : List (List Char) :=
  if text.length = 0 || (jsTrim text).length = 0 then []
  else
    let paragraphs := (splitParas text).filter (fun p => (jsTrim p).length > 0)
    let res := paraAccum chunkSize overlap paragraphs [] []
    if (jsTrim res.2).length > 0 then res.1 ++ [jsTrim res.2] else res.1

/-- Embedding of `chunkTextForRAG` from `src/lib/pdfHandler.ts`: split the
text on blank lines, accumulate paragraphs into chunks of about
`chunkSize` characters with `overlap` trailing characters carried over,
re-split oversized chunks at sentence boundaries, and finally drop chunks
shorter than 50 characters unless only one chunk was produced. -/
def chunkTextForRAG (text : List Char) (chunkSize overlap : Nat) : List (List Char) :=
  let chunks := chunksBeforeFilter text chunkSize overlap
  if chunks.length > 1 then chunks.filter (fun c => c.length ≥ 50) else chunks

/-- JS `toLowerCase` on character lists (ASCII-adequate, as in the sources). -/
def toLowerL (cs : List Char) : List Char :=
  cs.map Char.toLower

/-- Query terms of `getRelevantPdfChunks`: lowercase the query, split on
whitespace, and keep the tokens longer than two characters. -/
def queryTermsOf (query : List Char) : List (List Char) :=
  (splitWsRuns (toLowerL query)).filter (fun t => t.length > 2)

/-- Relevance score of a chunk in `getRelevantPdfChunks`: the `reduce`
that adds one for every query term occurring in the lowercased chunk. -/
def relevance (terms : List (List Char)) (chunk : List Char) : Nat :=
  terms.foldl (fun score t => score + (if jsIncludes t (toLowerL chunk) then 1 else 0)) 0

/-- Embedding of `getRelevantPdfChunks` from `src/lib/pdfHandler.ts`.
The per-attachment chunk source (`fetchAndChunkPdf` in the code) is
abstracted into the parameter `chunksOf`.  Chunks whose relevance score is
positive are collected in (attachment, sequence) order and the first ten
are returned. -/
def getRelevantPdfChunks (chunksOf : String → List (List Char))
    (eksportIds : List String) (query : List Char) : List (List Char) :=
  let queryTerms := queryTermsOf query
  let relevantChunks :=
    eksportIds.flatMap (fun id =>
      (chunksOf id).filter (fun chunk => relevance queryTerms chunk > 0))
  relevantChunks.take 10

/-- Artifact cache: attachment id to cached chunk list, `none` when absent. -/
def PdfCache : Type := String → Option (List (List Char))

/-- Update of the artifact cache at one key (`storage.savePdfChunks`). -/
def cacheSet (cache : PdfCache) (id : String) (chunks : List (List Char)) : PdfCache :=
  fun k => if k = id then some chunks else cache k

/-- Cache-miss path of `fetchAndChunkPdf`: fetch the PDF (the oracle
`fetchPdf` returns `none` on timeout or HTTP failure), parse it (the
oracle `parsePdf` returns `none` when the parser throws; the exception is
absorbed by the surrounding catch which returns `[]`), bail out when no
text was extracted, chunk, and cache the chunks only when at least one
was produced.  Returns the chunks and the updated cache. -/
def fetchAndChunkPdfRun {β : Type} (fetchPdf : String → Option β)
    (parsePdf : β → Option (List Char)) (cache : PdfCache) (eksportId : String) :
    List (List Char) × PdfCache :=
  match fetchPdf eksportId with
  | none => ([], cache)
  | some buf =>
    match parsePdf buf with
    | none => ([], cache)
    | some text =>
      if text.length = 0 || (jsTrim text).length = 0 then ([], cache)
      else
        let chunks := chunkTextForRAG text 1000 200
        if chunks.length > 0 then (chunks, cacheSet cache eksportId chunks)
        else (chunks, cache)

/-- Embedding of `fetchAndChunkPdf` from `src/lib/pdfHandler.ts`: a cached
non-empty chunk list is returned as-is; anything else (no entry, or an
empty cached list) falls through to the fetch, parse, chunk, cache path. -/
def fetchAndChunkPdf {β : Type} (fetchPdf : String → Option β)
    (parsePdf : β → Option (List Char)) (cache : PdfCache) (eksportId : String) :
    List (List Char) × PdfCache :=
  match cache eksportId with
  | some cached =>
    if cached.length > 0 then (cached, cache)
    else fetchAndChunkPdfRun fetchPdf parsePdf cache eksportId
  | none => fetchAndChunkPdfRun fetchPdf parsePdf cache eksportId

/-! ## Record store (`src/lib/storage.ts`)

Records are reduced to the fields the storage layer reads: `sakId` (used
as the storage key, with JS falsiness of `undefined` and the empty
string) and `date`.  ISO date strings are modelled as natural-number
timestamps in milliseconds; `new Date(doc.date)` comparisons become
comparisons of the timestamp and the `doc.date.split('T')[0]` calendar
day becomes `dayOf`. -/

/-- Milliseconds per calendar day. -/
def msPerDay : Nat := 86400000

/-- Calendar day of a millisecond timestamp (the `YYYY-MM-DD` prefix of
the corresponding ISO string). -/
def dayOf (t : Nat) : Nat := t / msPerDay

/-- Stored record, restricted to the fields `lib/storage.ts` touches. -/
structure StoredDoc where
  sakId : Option String
  date : Nat
deriving DecidableEq

/-- JS truthiness of an optional string: `undefined` and `""` are falsy. -/
def truthyStr : Option String → Bool
  | none => false
  | some s => !(s == "")

/-- JS `Map.prototype.set` on an association list: replace in place when
the key exists, append otherwise (also models `kv.set`). -/
def setKV {α : Type} : List (String × α) → String → α → List (String × α)
  | [], k, v => [(k, v)]
  | (k0, v0) :: rest, k, v =>
    if k0 = k then (k0, v) :: rest else (k0, v0) :: setKV rest k v

/-- JS `Map.prototype.get` on an association list (also models `kv.get`). -/
def lookupKV {α : Type} : List (String × α) → String → Option α
  | [], _ => none
  | (k0, v0) :: rest, k => if k0 = k then some v0 else lookupKV rest k

/-- Redis `SADD`: add a member to a set modelled as a duplicate-free list. -/
def saddList (l : List String) (id : String) : List String :=
  if id ∈ l then l else l ++ [id]

/-- In-memory backend state: the three `Map`s of `InMemoryStorage`
(summaries are irrelevant to the claims and modelled with an opaque
string payload; the optional JSON file snapshot is I/O outside the
model). -/
structure InMemState where
  documents : List (String × StoredDoc)
  summaries : List (String × String)
  pdfChunks : List (String × List (List Char))
deriving DecidableEq

/-- Embedding of `InMemoryStorage.getDocument`. -/
def InMemState.getDocument (st : InMemState) (sakId : String) : Option StoredDoc :=
  lookupKV st.documents sakId

/-- Embedding of `InMemoryStorage.saveDocument`: a falsy `sakId` returns
without touching the state. -/
def InMemState.saveDocument (st : InMemState) (doc : StoredDoc) : InMemState :=
  if truthyStr doc.sakId then
    { st with documents := setKV st.documents (doc.sakId.getD "") doc }
  else st

/-- Date-descending order used by the `sort` comparator
`(a, b) => dateB - dateA` of both range queries. -/
def dateDesc (a b : StoredDoc) : Prop := b.date ≤ a.date

instance decDateDesc : DecidableRel dateDesc :=
  fun a b => inferInstanceAs (Decidable (b.date ≤ a.date))

instance totalDateDesc : IsTotal StoredDoc dateDesc :=
  ⟨fun a b => Nat.le_total b.date a.date⟩

instance transDateDesc : IsTrans StoredDoc dateDesc :=
  ⟨fun _ _ _ h1 h2 => Nat.le_trans h2 h1⟩

/-- Embedding of `InMemoryStorage.getDocumentsByDateRange`: filter the
stored values to the inclusive range and sort by date descending (JS
`Array.prototype.sort` with a comparator is modelled by a sort consistent
with that comparator). -/
def InMemState.getDocumentsByDateRange (st : InMemState) (startDate endDate : Nat) :
    List StoredDoc :=
  List.insertionSort dateDesc
    ((st.documents.map Prod.snd).filter
      (fun d => decide (startDate ≤ d.date) && decide (d.date ≤ endDate)))

/-- Vercel KV backend state: the documents keyed by `doc:` id, the date
index keyed by calendar day (`docs:date:` keys), and the per-bucket TTL
written by `kv.expire`. -/
structure KVState where
  docs : List (String × StoredDoc)
  dateIndex : Nat → List String
  ttl : Nat → Option Nat

/-- Embedding of `VercelKVStorage.getDocument`. -/
def KVState.getDocument (st : KVState) (sakId : String) : Option StoredDoc :=
  lookupKV st.docs sakId

/-- Embedding of `VercelKVStorage.saveDocument`: store the record under
its id, `SADD` the id into the bucket of the record's calendar day, and
refresh that bucket's 30-day expiry.  No other bucket is touched. -/
def KVState.saveDocument (st : KVState) (doc : StoredDoc) : KVState :=
  if truthyStr doc.sakId then
    let id := doc.sakId.getD ""
    let day := dayOf doc.date
    { docs := setKV st.docs id doc
      dateIndex := fun d => if d = day then saddList (st.dateIndex day) id else st.dateIndex d
      ttl := fun d => if d = day then some (30 * 24 * 60 * 60) else st.ttl d }
  else st

/-- Days scanned by the range loop of
`VercelKVStorage.getDocumentsByDateRange`: starting at `startDate` the
loop advances one day at a time while the cursor is at most `endDate`,
using the cursor's calendar day as the index key. -/
def daysInRange (startDate endDate : Nat) : List Nat :=
  if startDate ≤ endDate then
    (List.range ((endDate - startDate) / msPerDay + 1)).map
      (fun k => dayOf (startDate + k * msPerDay))
  else []

/-- Embedding of `VercelKVStorage.getDocumentsByDateRange`: for each day
in the span take the bucket's members, resolve each id through the
document store dropping the ids that fail to resolve, and sort the
accumulated records by date descending. -/
def KVState.getDocumentsByDateRange (st : KVState) (startDate endDate : Nat) :
    List StoredDoc :=
  List.insertionSort dateDesc
    ((daysInRange startDate endDate).flatMap
      (fun d => (st.dateIndex d).filterMap (fun id => lookupKV st.docs id)))

/-! ## Sync engine (`fetchRecentDocuments`)

The XML listing and detail payloads are embedded after the tolerant
shape normalisation (`Array.isArray` wrapping, `navn` projection,
`String(...)` coercion): a `Sak` carries the listing fields the sync
cycle reads as optional strings, and an `Enriched` carries the values the
detail-fetch block extracts.  The detail fetch itself is an oracle
returning `none` on timeout, HTTP failure, thrown error or a missing
`detaljert_sak` element — every case in which the enhanced local
variables keep their `""` defaults. -/

/-- JS `a || b` on strings (the empty string is falsy). -/
def jsOrS (a b : String) : String := if a = "" then b else a

/-- JS `a || b` on optional strings (`undefined` and `""` are falsy). -/
def jsOrO (a b : Option String) : Option String := if truthyStr a then a else b

/-- JS `s || undefined`: turn an empty string into `undefined`. -/
def jsUndef (s : String) : Option String := if s = "" then none else some s

/-- Party reference inside a proposer entry. -/
structure PartyRef where
  id : String
  navn : String
deriving DecidableEq

/-- Proposer entry (`forslagstiller_liste.representant`), after the
per-field `|| ""` defaults. -/
structure Rep where
  id : String
  fornavn : String
  etternavn : String
  parti : Option PartyRef
deriving DecidableEq

/-- Case-progression step extracted from `saksgang`. -/
structure Saksgang where
  steg : String
  dato : String
  komite : String
  beskrivelse : String
deriving DecidableEq

/-- Publication reference extracted from `publikasjon_referanse_liste`. -/
structure PubRef where
  eksport_id : Option String
  lenke_tekst : String
  lenke_url : String
  type : String
  undertype : Option String
deriving DecidableEq

/-- Listing item of the polled `saker` feed, restricted to the fields
`fetchRecentDocuments` reads from it. -/
structure Sak where
  id : Option String
  tittel : Option String
  korttittel : Option String
  sist_oppdatert_dato : Option String
  respons_dato_tid : Option String
  henvisning : Option String
  dokumentgruppe : Option String
  forslagstillere : List Rep
  emneNavn : Option String
  departement : Option String
  fra : Option String
  fra_departement : Option String
deriving DecidableEq

/-- Values extracted by the detail-fetch block when it succeeds: the
enhanced local variables of `fetchRecentDocuments` at the end of the
`try` block (with `departement` the candidate computed when the listing
left it empty). -/
structure Enriched where
  grunnlag : String
  referat : String
  fullText : String
  komite : String
  status : String
  innstillingstekst : String
  departement : String
  saksgang : List Saksgang
  pubRefs : List PubRef
deriving DecidableEq

/-- Defaults of the enhanced variables, in force when the detail fetch
fails or is skipped. -/
def emptyEnriched : Enriched :=
  { grunnlag := "", referat := "", fullText := "", komite := "", status := ""
    innstillingstekst := "", departement := "", saksgang := [], pubRefs := [] }

/-- Canonical record assembled by `fetchRecentDocuments` (the
`StortingetDocument` object literal at the end of the per-sak closure). -/
structure StortingetDocument where
  title : String
  date : String
  url : String
  content : String
  text : String
  dokumentgruppe : String
  forslagstiller_liste : List Rep
  henvisning : String
  sakId : Option String
  tema : Option String
  lastUpdated : Option String
  grunnlag : Option String
  referat : Option String
  fullText : Option String
  komite : Option String
  status : Option String
  departement : Option String
  saksgang : Option (List Saksgang)
  publikasjon_referanser : Option (List PubRef)
  innstillingstekst : Option String
deriving DecidableEq

/-- Keyword table used to infer a `tema` from the title when the listing
carries no `emne`. -/
def temaKeywords : List (List Char × String) :=
  [("statsbudsjett".toList, "Statsbudsjettet"),
   ("budsjett".toList, "Statsbudsjettet"),
   ("finans".toList, "Finanser"),
   ("skatt".toList, "Skatter"),
   ("skatter".toList, "Skatter"),
   ("drosje".toList, "Samferdsel"),
   ("taxi".toList, "Samferdsel"),
   ("transport".toList, "Samferdsel"),
   ("rullestol".toList, "Funksjonshemmede"),
   ("innvandr".toList, "Innvandrere"),
   ("flyktning".toList, "Innvandrere"),
   ("ukraina".toList, "Utenrikssaker"),
   ("ekomlov".toList, "Kommunikasjonsteknologi"),
   ("telekom".toList, "Kommunikasjonsteknologi"),
   ("kommunikasjon".toList, "Kommunikasjonsteknologi"),
   ("sekund√¶rbosett".toList, "Innvandrere"),
   ("bosett".toList, "Innvandrere")]

/-- Tema of a listing item: the first `emne` name when truthy, otherwise
the first keyword of `temaKeywords` found in the lowercased
title-and-short-title text, otherwise `undefined`. -/
def inferTema (sak : Sak) : Option String :=
  if truthyStr sak.emneNavn then sak.emneNavn
  else
    let searchText :=
      toLowerL ((sak.tittel.getD "").toList ++ ' ' :: (sak.korttittel.getD "").toList)
    ((temaKeywords.find? (fun kv => jsIncludes kv.1 searchText)).map (fun kv => kv.2))

/-- Department extracted from the listing item alone: the
`departement` / `fra` / `fra_departement` fallback chain. -/
def listingDepartement (sak : Sak) : String :=
  (jsOrO sak.departement (jsOrO sak.fra sak.fra_departement)).getD ""

/-- Listing-side revision marker of a candidate item
(`sak.sist_oppdatert_dato || sak.respons_dato_tid`). -/
def listedMarker (sak : Sak) : Option String :=
  jsOrO sak.sist_oppdatert_dato sak.respons_dato_tid

/-- Stored-side revision marker (`stored.lastUpdated || stored.date`). -/
def storedMarker (doc : StortingetDocument) : Option String :=
  jsOrO doc.lastUpdated (some doc.date)

/-- JS `Map` built from key/value pairs: a later pair with the same key
overwrites an earlier one, so lookup returns the last matching value. -/
def lookupLast {κ α : Type} [DecidableEq κ] (l : List (κ × α)) (k : κ) : Option α :=
  l.foldl (fun acc p => if p.1 = k then some p.2 else acc) none

/-- The `storedDocsMap` of `fetchRecentDocuments`: stored records keyed by
their (possibly undefined) `sakId`. -/
def storedDocsMap (storedDocs : List StortingetDocument) :
    List (Option String × StortingetDocument) :=
  storedDocs.map (fun d => (d.sakId, d))

/-- Change detector of `fetchRecentDocuments`: keep a candidate when no
record is stored under its id (New) or when the stored marker differs
from the listed marker (Changed); drop it otherwise (Unchanged). -/
def sakerToFetch (storedMap : List (Option String × StortingetDocument))
    (filteredSaker : List Sak) : List Sak :=
  filteredSaker.filter (fun sak =>
    match lookupLast storedMap sak.id with
    | none => true
    | some stored => decide (storedMarker stored ≠ listedMarker sak))

/-- Record assembled for one candidate item: listing-derived fields are
always populated; the enhanced fields come from the detail outcome and
keep their defaults when it is `none`.  The `now` parameter stands for
`new Date().toISOString()` in the date fallback. -/
def buildDocument (now : String) (sak : Sak) (detail : Option Enriched) :
    StortingetDocument :=
  let e := detail.getD emptyEnriched
  let dep := jsOrS (listingDepartement sak) e.departement
  { title := jsOrS (sak.tittel.getD "") (jsOrS (sak.korttittel.getD "") "Ingen tittel")
    date := jsOrS (sak.sist_oppdatert_dato.getD "") (jsOrS (sak.respons_dato_tid.getD "") now)
    url :=
      if truthyStr sak.id then
        "https://www.stortinget.no/no/Saker-og-publikasjoner/Saker/Sak/?p=" ++ sak.id.getD ""
      else ""
    content := sak.henvisning.getD ""
    text := jsOrS e.fullText (jsOrS (sak.henvisning.getD "") (sak.korttittel.getD ""))
    dokumentgruppe := sak.dokumentgruppe.getD ""
    forslagstiller_liste := sak.forslagstillere
    henvisning := sak.henvisning.getD ""
    sakId := sak.id
    tema := inferTema sak
    lastUpdated := listedMarker sak
    grunnlag := jsUndef e.grunnlag
    referat := jsUndef e.referat
    fullText := jsUndef e.fullText
    komite := jsUndef e.komite
    status := jsUndef e.status
    departement := jsUndef dep
    saksgang := if e.saksgang.length > 0 then some e.saksgang else none
    publikasjon_referanser := if e.pubRefs.length > 0 then some e.pubRefs else none
    innstillingstekst := jsUndef e.innstillingstekst }

/-- Detail outcome for one candidate: the detail fetch is attempted only
when the id is truthy; a falsy id leaves the enhanced variables at their
defaults exactly like a failed fetch. -/
def detailOutcome (detailOf : String → Option Enriched) (sak : Sak) : Option Enriched :=
  if truthyStr sak.id then detailOf (sak.id.getD "") else none

/-- The `newDocuments` array of `fetchRecentDocuments`: one record built
per new-or-changed candidate, in listing order, whatever the outcome of
its detail fetch. -/
def newDocuments (now : String) (detailOf : String → Option Enriched)
    (storedDocs : List StortingetDocument) (filteredSaker : List Sak) :
    List StortingetDocument :=
  (sakerToFetch (storedDocsMap storedDocs) filteredSaker).map
    (fun sak => buildDocument now sak (detailOutcome detailOf sak))

/-- Records handed to `storage.saveDocument` by the sync cycle: every
built record whose `sakId` is truthy. -/
def savedDocuments (now : String) (detailOf : String → Option Enriched)
    (storedDocs : List StortingetDocument) (filteredSaker : List Sak) :
    List StortingetDocument :=
  (newDocuments now detailOf storedDocs filteredSaker).filter
    (fun doc => truthyStr doc.sakId)

/-! ## Fixtures and hypothesis predicates -/

/-- Consistency of the KV date index with the document store: every
bucket member resolves to a record whose date falls on that bucket's day,
every stored record is indexed under its day, buckets are duplicate-free
and document keys are unique.  The state reached by saving each record
once satisfies this; re-saving a record under a changed date breaks it
(see the claim 2 and claim 3 counterexamples). -/
def KVIndexConsistent (st : KVState) : Prop :=
  (∀ d id, id ∈ st.dateIndex d →
      ∃ doc, lookupKV st.docs id = some doc ∧ dayOf doc.date = d) ∧
  (∀ id doc, lookupKV st.docs id = some doc → id ∈ st.dateIndex (dayOf doc.date)) ∧
  (∀ d, (st.dateIndex d).Nodup) ∧
  (st.docs.map Prod.fst).Nodup

/-- All stored dates sit at a day boundary (the model of ISO timestamps
whose time-of-day part is midnight, where the calendar-day truncation of
`split('T')[0]` loses no ordering information). -/
def KVAligned (st : KVState) : Prop :=
  ∀ doc ∈ st.docs.map Prod.snd, doc.date % msPerDay = 0

/-- Empty KV state. -/
def kvEmpty : KVState :=
  { docs := [], dateIndex := fun _ => [], ttl := fun _ => none }

/-- Record `A` dated on calendar day 0. -/
def docA0 : StoredDoc := { sakId := some "A", date := 0 }

/-- Record `A` re-dated to calendar day 1. -/
def docA1 : StoredDoc := { sakId := some "A", date := 86400000 }

/-- Record `B` dated 100 ms into day 0 (not day-aligned). -/
def docB : StoredDoc := { sakId := some "B", date := 100 }

/-- State after saving record `A` on day 0 and re-saving it with its date
moved to day 1: the id remains in the day-0 bucket. -/
def kvStale : KVState := (kvEmpty.saveDocument docA0).saveDocument docA1

/-- State holding only the misaligned record `B`. -/
def kvB : KVState := kvEmpty.saveDocument docB

/-- Consistent, aligned one-record state used by witnesses. -/
def kvGood : KVState :=
  { docs := [("A", docA0)]
    dateIndex := fun d => if d = 0 then ["A"] else []
    ttl := fun _ => none }

/-- Listing item used in the claim 1 scenario: id `A`, marker `r1`,
title and reference text present, nothing else. -/
def sakA : Sak :=
  { id := some "A", tittel := some "Tittel A", korttittel := none
    sist_oppdatert_dato := some "r1", respons_dato_tid := none
    henvisning := some "Dokument 8:1 S", dokumentgruppe := none
    forslagstillere := [], emneNavn := none
    departement := none, fra := none, fra_departement := none }

/-- Detail oracle in which every detail fetch fails. -/
def detailFail : String → Option Enriched := fun _ => none

/-- Chunk matching one of the two query terms of `queryAB`. -/
def chunkA : List Char := "xx alpha xx chunk one filler".toList

/-- Chunk matching both query terms of `queryAB`. -/
def chunkB : List Char := "alpha beta chunk two".toList

/-- Two-term query used by the relevance fixtures. -/
def queryAB : List Char := "alpha beta".toList

/-- Chunk source holding `chunkA` then `chunkB` under attachment `e1`. -/
def chunksOfAB : String → List (List Char) :=
  fun id => if id = "e1" then [chunkA, chunkB] else []

/-- Trivial PDF-fetch oracle that always fails (used by witnesses). -/
def fetchNone : String → Option Unit := fun _ => none

/-- Trivial PDF-parse oracle that always fails (used by witnesses). -/
def parseNone : Unit → Option (List Char) := fun _ => none

/-- Empty artifact cache. -/
def cacheEmpty : PdfCache := fun _ => none

/-! ## Helper lemmas -/

/-- An id is always a member of the bucket it was just `SADD`-ed into. -/
theorem mem_saddList_self (l : List String) (id : String) : id ∈ saddList l id := by
  unfold saddList
  by_cases hm : id ∈ l
  · simp [hm]
  · simp [hm]

/-- The indicator-summing `reduce` of the relevance score counts the
satisfying elements. -/
theorem foldl_add_indicator {α : Type} (p : α → Bool) (l : List α) (n : Nat) :
    l.foldl (fun s t => s + (if p t then 1 else 0)) n = n + l.countP p := by
  induction l generalizing n with
  | nil => simp
  | cons a l ih => by_cases h : p a <;> simp [h, ih, List.countP_cons] <;> omega

/-- The relevance score is the number of query terms occurring in the
lowercased chunk. -/
theorem relevance_eq_countP (terms : List (List Char)) (chunk : List Char) :
    relevance terms chunk = terms.countP (fun t => jsIncludes t (toLowerL chunk)) := by
  unfold relevance
  rw [foldl_add_indicator]
  simp

/-! ## Claim 5: the chunking scenario -/

/-- Claim C5 is false on the code: on the scenario text with target size 20
and overlap 5, `chunkTextForRAG` does not yield at least two chunks — it
yields none, because the 50-character minimum floor drops both
accumulated chunks. -/
theorem claim5_counterexample :
    ¬ 2 ≤ (chunkTextForRAG "Para1.\n\nPara2 is very long...".toList 20 5).length := by
  decide

/-- Claim C5 amended: the accumulation phase produces exactly two chunks,
each at most 1.5 times the target size, the second beginning with the
last five characters of the first; but both are shorter than the
50-character floor, and since more than one chunk was accumulated the
final filter drops both, so the function returns the empty list. -/
theorem claim5_amended :
    chunksBeforeFilter "Para1.\n\nPara2 is very long...".toList 20 5 =
      ["Para1.".toList, "ara1.\n\nPara2 is very long...".toList] ∧
    startsWithL (takeLast 5 "Para1.".toList) "ara1.\n\nPara2 is very long...".toList = true ∧
    "Para1.".toList.length ≤ 30 ∧ "ara1.\n\nPara2 is very long...".toList.length ≤ 30 ∧
    "Para1.".toList.length < 50 ∧ "ara1.\n\nPara2 is very long...".toList.length < 50 ∧
    chunkTextForRAG "Para1.\n\nPara2 is very long...".toList 20 5 = [] := by
  decide

/-! ## Claim 8: determinism of the chunker -/

/-- Claim C8: `chunkTextForRAG` is deterministic — its output depends on
nothing but its arguments, so two calls with identical arguments return
identical chunk lists.  The embedding itself establishes purity: the
source function reads no ambient state, so it translates to a plain
function of its three arguments. -/
theorem claim8_deterministic (t1 t2 : List Char) (s1 s2 o1 o2 : Nat)
    (ht : t1 = t2) (hs : s1 = s2) (ho : o1 = o2) :
    chunkTextForRAG t1 s1 o1 = chunkTextForRAG t2 s2 o2 := by
  subst ht hs ho
  rfl

/-- Witness for claim C8 at the scenario input. -/
theorem claim8_witness :
    chunkTextForRAG "Para1.\n\nPara2 is very long...".toList 20 5 =
      chunkTextForRAG "Para1.\n\nPara2 is very long...".toList 20 5 :=
  claim8_deterministic _ _ _ _ _ _ rfl rfl rfl

/-! ## Claim 10: saving a record without an id is a no-op -/

/-- Claim C10: when the record's `sakId` is missing or empty, `saveDocument`
returns leaving both backends completely unchanged, so every subsequent
`getDocument` answers as before. -/
theorem claim10_falsy_id_noop (stM : InMemState) (stK : KVState) (doc : StoredDoc)
    (h : truthyStr doc.sakId = false) :
    stM.saveDocument doc = stM ∧ stK.saveDocument doc = stK ∧
    (∀ id, (stM.saveDocument doc).getDocument id = stM.getDocument id) ∧
    (∀ id, (stK.saveDocument doc).getDocument id = stK.getDocument id) := by
  refine ⟨?_, ?_, ?_, ?_⟩ <;> simp [InMemState.saveDocument, KVState.saveDocument, h]

/-- Witness for claim C10: an absent id and an empty id, one per backend. -/
theorem claim10_witness :
    InMemState.saveDocument ⟨[], [], []⟩ ⟨none, 0⟩ = ⟨[], [], []⟩ ∧
    KVState.saveDocument kvEmpty ⟨some "", 5⟩ = kvEmpty :=
  ⟨(claim10_falsy_id_noop ⟨[], [], []⟩ kvEmpty ⟨none, 0⟩ rfl).1,
   (claim10_falsy_id_noop ⟨[], [], []⟩ kvEmpty ⟨some "", 5⟩ rfl).2.1⟩

/-! ## Claim 3: date-index maintenance on `put` -/

/-- Claim C3 is false on the code: after re-saving record `A` with its date
moved from day 0 to day 1, the id is still a member of the day-0 bucket
(`saveDocument` never removes an id from the bucket of the old day), so
the id is not a member of exactly the bucket of its current date. -/
theorem claim3_counterexample :
    "A" ∈ kvStale.dateIndex 0 ∧ "A" ∈ kvStale.dateIndex 1 ∧
    lookupKV kvStale.docs "A" = some docA1 ∧ dayOf docA1.date = 1 := by
  decide

/-- Claim C3 amended: `put` adds the id to the bucket of the record's
current day (and refreshes that bucket's expiry) but touches no other
bucket — in particular it never removes the id from the bucket of the
previous date, so stale memberships persist. -/
theorem claim3_amended (st : KVState) (doc : StoredDoc) (h : truthyStr doc.sakId = true) :
    (doc.sakId.getD "") ∈ (st.saveDocument doc).dateIndex (dayOf doc.date) ∧
    ∀ d, d ≠ dayOf doc.date → (st.saveDocument doc).dateIndex d = st.dateIndex d := by
  constructor
  · simp only [KVState.saveDocument, h, if_true]
    simpa using mem_saddList_self (st.dateIndex (dayOf doc.date)) (doc.sakId.getD "")
  · intro d hd
    simp [KVState.saveDocument, h, hd]

/-- Witness for claim C3 at the first save of record `A`. -/
theorem claim3_witness :
    "A" ∈ (kvEmpty.saveDocument docA0).dateIndex (dayOf docA0.date) :=
  (claim3_amended kvEmpty docA0 rfl).1

/-! ## Claim 6: ordering of the relevance selector -/

/-- Claim C6 fails on the code: with one attachment holding a score-1 chunk
followed by a score-2 chunk, `getRelevantPdfChunks` returns them in
(attachment, sequence) order — ascending score — although its own comment
says the chunks are sorted by relevance; no sort is performed. -/
theorem claim6_unsorted_eval :
    getRelevantPdfChunks chunksOfAB ["e1"] queryAB = [chunkA, chunkB] ∧
    relevance (queryTermsOf queryAB) chunkA = 1 ∧
    relevance (queryTermsOf queryAB) chunkB = 2 := by
  decide

/-! ## Claim 7: bound and matching guarantee of the relevance selector -/

/-- Claim C7: `getRelevantPdfChunks` returns at most ten chunks, and every
returned chunk contains at least one whitespace-separated query token
longer than two characters as a case-insensitive substring. -/
theorem claim7_bounded_and_matching (chunksOf : String → List (List Char))
    (ids : List String) (query : List Char) :
    (getRelevantPdfChunks chunksOf ids query).length ≤ 10 ∧
    ∀ ch ∈ getRelevantPdfChunks chunksOf ids query,
      ∃ t, t ∈ splitWsRuns (toLowerL query) ∧ t.length > 2 ∧
        jsIncludes t (toLowerL ch) = true := by
  constructor
  · simp only [getRelevantPdfChunks]
    exact List.length_take_le 10
      (ids.flatMap (fun id =>
        (chunksOf id).filter (fun chunk => relevance (queryTermsOf query) chunk > 0)))
  · intro ch hch
    have hch2 : ch ∈ ids.flatMap (fun id =>
        (chunksOf id).filter (fun chunk => relevance (queryTermsOf query) chunk > 0)) :=
      List.mem_of_mem_take hch
    rw [List.mem_flatMap] at hch2
    obtain ⟨id, _, hmem⟩ := hch2
    rw [List.mem_filter] at hmem
    have hrel : 0 < (queryTermsOf query).countP (fun t => jsIncludes t (toLowerL ch)) := by
      have := hmem.2
      rw [← relevance_eq_countP]
      simpa using this
    obtain ⟨t, ht, hp⟩ := List.countP_pos_iff.mp hrel
    rw [queryTermsOf, List.mem_filter] at ht
    exact ⟨t, ht.1, by simpa using ht.2, hp⟩

/-- Witness for claim C7 on the two-chunk fixture. -/
theorem claim7_witness :
    (getRelevantPdfChunks chunksOfAB ["e1"] queryAB).length ≤ 10 ∧
    ∃ t, t ∈ splitWsRuns (toLowerL queryAB) ∧ t.length > 2 ∧
      jsIncludes t (toLowerL chunkA) = true :=
  ⟨(claim7_bounded_and_matching chunksOfAB ["e1"] queryAB).1,
   (claim7_bounded_and_matching chunksOfAB ["e1"] queryAB).2 chunkA (by decide)⟩

/-! ## Claim 9: artifact-cache discipline -/

/-- Branch analysis of the cache-miss path: it either leaves the cache
unchanged or stores the non-empty chunk list it returns. -/
theorem fetchAndChunkPdfRun_shape {β : Type} (f : String → Option β)
    (p : β → Option (List Char)) (cache : PdfCache) (id : String) :
    (fetchAndChunkPdfRun f p cache id).2 = cache ∨
      ((fetchAndChunkPdfRun f p cache id).1 ≠ [] ∧
        (fetchAndChunkPdfRun f p cache id).2 =
          cacheSet cache id (fetchAndChunkPdfRun f p cache id).1) := by
  cases hf : f id with
  | none => simp [fetchAndChunkPdfRun, hf]
  | some buf =>
    cases hp : p buf with
    | none => simp [fetchAndChunkPdfRun, hf, hp]
    | some text =>
      simp only [fetchAndChunkPdfRun, hf, hp]
      split
      · exact Or.inl rfl
      · split
        · next h2 => exact Or.inr ⟨List.length_pos.mp h2, rfl⟩
        · exact Or.inl rfl

/-- A cache write of a non-empty list preserves the no-empty-entries
invariant. -/
theorem cacheSet_preserves (cache : PdfCache) (id : String) (chunks : List (List Char))
    (hinv : ∀ k l, cache k = some l → l ≠ []) (hne : chunks ≠ []) :
    ∀ k l, cacheSet cache id chunks k = some l → l ≠ [] := by
  intro k l h
  unfold cacheSet at h
  by_cases hk : k = id
  · rw [if_pos hk] at h
    cases h
    exact hne
  · rw [if_neg hk] at h
    exact hinv k l h

/-- Claim C9: `fetchAndChunkPdf` writes to the cache only when chunking
produced at least one chunk (and then writes exactly what it returns), a
cached empty list is treated as a miss (the pipeline runs as if no entry
existed), a run that yields no chunks leaves the cache untouched, and
consequently a cache holding only non-empty chunk lists still holds only
non-empty chunk lists afterwards. -/
theorem claim9_cache_discipline {β : Type} (f : String → Option β)
    (p : β → Option (List Char)) (cache : PdfCache) (id : String) :
    ((fetchAndChunkPdf f p cache id).2 = cache ∨
      ((fetchAndChunkPdf f p cache id).1 ≠ [] ∧
        (fetchAndChunkPdf f p cache id).2 =
          cacheSet cache id (fetchAndChunkPdf f p cache id).1)) ∧
    (cache id = some [] →
      fetchAndChunkPdf f p cache id = fetchAndChunkPdfRun f p cache id) ∧
    ((fetchAndChunkPdf f p cache id).1 = [] → (fetchAndChunkPdf f p cache id).2 = cache) ∧
    ((∀ k l, cache k = some l → l ≠ []) →
      ∀ k l, (fetchAndChunkPdf f p cache id).2 k = some l → l ≠ []) := by
  have hmain : (fetchAndChunkPdf f p cache id).2 = cache ∨
      ((fetchAndChunkPdf f p cache id).1 ≠ [] ∧
        (fetchAndChunkPdf f p cache id).2 =
          cacheSet cache id (fetchAndChunkPdf f p cache id).1) := by
    unfold fetchAndChunkPdf
    rcases hc : cache id with _ | cached
    · exact fetchAndChunkPdfRun_shape f p cache id
    · by_cases hlen : cached.length > 0
      · simp [hlen]
      · simp only [hlen, if_false]
        exact fetchAndChunkPdfRun_shape f p cache id
  refine ⟨hmain, ?_, ?_, ?_⟩
  · intro hc
    unfold fetchAndChunkPdf
    rw [hc]
    simp
  · intro hnil
    rcases hmain with h | ⟨hne, _⟩
    · exact h
    · exact absurd hnil hne
  · intro hinv
    rcases hmain with h | ⟨hne, hset⟩
    · rw [h]
      exact hinv
    · rw [hset]
      exact cacheSet_preserves cache id _ hinv hne

/-- Witness for claim C9: with failing fetch and parse oracles and an
empty cache, the call leaves the cache unchanged. -/
theorem claim9_witness :
    (fetchAndChunkPdf fetchNone parseNone cacheEmpty "x").2 = cacheEmpty :=
  (claim9_cache_discipline fetchNone parseNone cacheEmpty "x").2.2.1 rfl

/-! ## Claim 4: unchanged candidates are not re-fetched -/

/-- Claim C4: a candidate whose listed revision marker equals the marker
stored for its id is classified Unchanged: it is excluded from
`sakerToFetch`, the list over which all detail fetches run; and when every
listed candidate with that id carries the same unchanged marker, the id
appears nowhere in the fetched set. -/
theorem claim4_unchanged_not_refetched (storedDocs : List StortingetDocument)
    (saks : List Sak) (sak : Sak) (stored : StortingetDocument)
    (hlook : lookupLast (storedDocsMap storedDocs) sak.id = some stored)
    (heq : storedMarker stored = listedMarker sak) :
    sak ∉ sakerToFetch (storedDocsMap storedDocs) saks ∧
    ((∀ s ∈ saks, s.id = sak.id → storedMarker stored = listedMarker s) →
      sak.id ∉ (sakerToFetch (storedDocsMap storedDocs) saks).map Sak.id) := by
  constructor
  · intro hmem
    rw [sakerToFetch, List.mem_filter, hlook] at hmem
    simp [heq] at hmem
  · intro hall hmem
    rw [List.mem_map] at hmem
    obtain ⟨s, hs, hid⟩ := hmem
    rw [sakerToFetch, List.mem_filter] at hs
    obtain ⟨hs1, hs2⟩ := hs
    rw [hid, hlook] at hs2
    simp [hall s hs1 hid] at hs2

/-- Witness for claim C4: a stored record whose marker matches the listing
leaves the candidate out of the fetch set. -/
theorem claim4_witness :
    sakA ∉ sakerToFetch (storedDocsMap [buildDocument "2024-01-01" sakA none]) [sakA] :=
  (claim4_unchanged_not_refetched [buildDocument "2024-01-01" sakA none] [sakA] sakA
      (buildDocument "2024-01-01" sakA none) (by decide) (by decide)).1

/-! ## Claim 1: persistence on detail-fetch failure -/

/-- Claim C1 is false on the code: with the detail fetch failing for the
new candidate `A`, the cycle still writes one record — built from the
listing alone, with no detail-derived content and with `lastUpdated`
already equal to the listed marker, so the next poll will classify the
record as Unchanged rather than retry. -/
theorem claim1_counterexample :
    (savedDocuments "2024-01-01T00:00:00Z" detailFail [] [sakA]).length = 1 ∧
    (savedDocuments "2024-01-01T00:00:00Z" detailFail [] [sakA]).head? =
      some (buildDocument "2024-01-01T00:00:00Z" sakA none) ∧
    (buildDocument "2024-01-01T00:00:00Z" sakA none).sakId = some "A" ∧
    (buildDocument "2024-01-01T00:00:00Z" sakA none).fullText = none ∧
    (buildDocument "2024-01-01T00:00:00Z" sakA none).lastUpdated = some "r1" ∧
    listedMarker sakA = some "r1" := by
  decide

/-- Claim C1 amended: every new-or-changed candidate with a truthy id has a
record persisted whatever the outcome of its detail fetch; when the detail
fetch fails, the persisted record carries listing data only — all enhanced
fields are unset, the body text falls back to the listing reference or
short title — and its `lastUpdated` equals the listed marker, so the id is
not retried on the next poll. -/
theorem claim1_amended (now : String) (detailOf : String → Option Enriched)
    (storedDocs : List StortingetDocument) (saks : List Sak) (sak : Sak)
    (hmem : sak ∈ sakerToFetch (storedDocsMap storedDocs) saks)
    (hid : truthyStr sak.id = true) :
    buildDocument now sak (detailOutcome detailOf sak) ∈
      savedDocuments now detailOf storedDocs saks ∧
    (detailOutcome detailOf sak = none →
      (buildDocument now sak (detailOutcome detailOf sak)).grunnlag = none ∧
      (buildDocument now sak (detailOutcome detailOf sak)).referat = none ∧
      (buildDocument now sak (detailOutcome detailOf sak)).fullText = none ∧
      (buildDocument now sak (detailOutcome detailOf sak)).komite = none ∧
      (buildDocument now sak (detailOutcome detailOf sak)).status = none ∧
      (buildDocument now sak (detailOutcome detailOf sak)).saksgang = none ∧
      (buildDocument now sak (detailOutcome detailOf sak)).publikasjon_referanser = none ∧
      (buildDocument now sak (detailOutcome detailOf sak)).innstillingstekst = none ∧
      (buildDocument now sak (detailOutcome detailOf sak)).text =
        jsOrS (sak.henvisning.getD "") (sak.korttittel.getD "") ∧
      (buildDocument now sak (detailOutcome detailOf sak)).lastUpdated = listedMarker sak) := by
  constructor
  · rw [savedDocuments, List.mem_filter]
    refine ⟨?_, ?_⟩
    · rw [newDocuments, List.mem_map]
      exact ⟨sak, hmem, rfl⟩
    · simpa [buildDocument] using hid
  · intro hfail
    rw [hfail]
    simp [buildDocument, emptyEnriched, jsUndef, jsOrS]

/-- Witness for claim C1 at the failing-fetch scenario. -/
theorem claim1_witness :
    buildDocument "2024-01-01T00:00:00Z" sakA (detailOutcome detailFail sakA) ∈
      savedDocuments "2024-01-01T00:00:00Z" detailFail [] [sakA] :=
  (claim1_amended "2024-01-01T00:00:00Z" detailFail [] [sakA] sakA (by decide) rfl).1

/-! ## Claim 2: range queries -/

/-- A successful association-list lookup exhibits a stored pair. -/
theorem lookupKV_mem {α : Type} : ∀ {l : List (String × α)} {k : String} {v : α},
    lookupKV l k = some v → (k, v) ∈ l
  | [], k, v, h => by simp [lookupKV] at h
  | (k0, v0) :: rest, k, v, h => by
    rw [lookupKV] at h
    by_cases hk : k0 = k
    · subst hk
      rw [if_pos rfl] at h
      injection h with h
      subst h
      exact List.mem_cons_self _ _
    · rw [if_neg hk] at h
      exact List.mem_cons_of_mem _ (lookupKV_mem h)

/-- With duplicate-free keys, a stored pair is found by lookup. -/
theorem mem_lookupKV {α : Type} : ∀ {l : List (String × α)},
    (l.map Prod.fst).Nodup → ∀ {k : String} {v : α}, (k, v) ∈ l → lookupKV l k = some v
  | [], _, k, v, h => by simp at h
  | (k0, v0) :: rest, hnd, k, v, h => by
    rw [List.map_cons, List.nodup_cons] at hnd
    rw [List.mem_cons] at h
    rcases h with h | h
    · injection h with h1 h2
      subst h1
      subst h2
      rw [lookupKV, if_pos rfl]
    · rw [lookupKV]
      by_cases hk : k0 = k
      · exact absurd (List.mem_map.mpr ⟨(k, v), h, hk.symm ▸ rfl⟩) hnd.1
      · rw [if_neg hk]
        exact mem_lookupKV hnd.2 h

/-- A `filterMap` whose function totally succeeds is a `map`. -/
theorem filterMap_eq_map_of_forall {α β : Type} {f : α → Option β} {g : α → β} :
    ∀ {l : List α}, (∀ x ∈ l, f x = some (g x)) → l.filterMap f = l.map g
  | [], _ => rfl
  | x :: rest, h => by
    rw [List.filterMap_cons, h x (List.mem_cons_self _ _), List.map_cons,
      filterMap_eq_map_of_forall (fun y hy => h y (List.mem_cons_of_mem _ hy))]

/-- Filtering by a disjunction of disjoint predicates splits, up to
permutation, into the two filters concatenated. -/
theorem filter_append_perm_of_disjoint {α : Type} {p q : α → Bool}
    (hdisj : ∀ x, ¬(p x = true ∧ q x = true)) :
    ∀ (l : List α), (l.filter (fun x => p x || q x)).Perm (l.filter p ++ l.filter q)
  | [] => by simp
  | x :: rest => by
    by_cases hp : p x
    · have hq : ¬ q x = true := fun hq => hdisj x ⟨hp, hq⟩
      simp only [List.filter_cons, hp, hq, Bool.true_or, if_true, Bool.false_eq_true,
        if_false, List.cons_append]
      exact (filter_append_perm_of_disjoint hdisj rest).cons x
    · by_cases hq : q x
      · simp only [List.filter_cons, hp, hq, Bool.false_or, if_true, Bool.false_eq_true,
          if_false]
        exact ((filter_append_perm_of_disjoint hdisj rest).cons x).trans
          List.perm_middle.symm
      · simp only [List.filter_cons, hp, hq, Bool.or_self, Bool.false_eq_true, if_false]
        exact filter_append_perm_of_disjoint hdisj rest

/-- `flatMap` respects pointwise permutation of its function. -/
theorem flatMap_perm_congr {α β : Type} {f g : α → List β} :
    ∀ {l : List α}, (∀ x ∈ l, (f x).Perm (g x)) → (l.flatMap f).Perm (l.flatMap g)
  | [], _ => List.Perm.refl _
  | x :: rest, h => by
    rw [List.flatMap_cons, List.flatMap_cons]
    exact (h x (List.mem_cons_self _ _)).append
      (flatMap_perm_congr (fun y hy => h y (List.mem_cons_of_mem _ hy)))

/-- Scanning a duplicate-free list of keys and collecting, for each key,
the elements classified under it is a permutation of filtering by
key membership. -/
theorem flatMap_filter_key_perm {α : Type} (key : α → Nat) :
    ∀ (days : List Nat), days.Nodup → ∀ (l : List α),
      (days.flatMap (fun d => l.filter (fun x => decide (key x = d)))).Perm
        (l.filter (fun x => decide (key x ∈ days)))
  | [], _, l => by simp
  | d :: ds, hnd, l => by
    rw [List.nodup_cons] at hnd
    rw [List.flatMap_cons]
    have hdisj : ∀ x, ¬(decide (key x = d) = true ∧ decide (key x ∈ ds) = true) := by
      intro x hx
      obtain ⟨hx1, hx2⟩ := hx
      rw [decide_eq_true_iff] at hx1 hx2
      exact hnd.1 (hx1 ▸ hx2)
    have hcongr : l.filter (fun x => decide (key x ∈ d :: ds)) =
        l.filter (fun x => decide (key x = d) || decide (key x ∈ ds)) := by
      apply List.filter_congr
      intro x _
      simp [List.mem_cons]
    rw [hcongr]
    exact (List.Perm.append_left _ (flatMap_filter_key_perm key ds hnd.2 l)).trans
      (filter_append_perm_of_disjoint hdisj l).symm

/-- With a day-aligned start bound, the scanned days are the consecutive
day numbers starting at the start bound's day. -/
theorem daysInRange_eq_of_aligned {s e : Nat} (hs : s % msPerDay = 0) :
    daysInRange s e = if s ≤ e then
      (List.range ((e - s) / msPerDay + 1)).map (fun k => s / msPerDay + k) else [] := by
  unfold daysInRange
  split
  · apply List.map_congr_left
    intro k _
    unfold dayOf
    unfold msPerDay at hs ⊢
    omega
  · rfl

/-- The scanned day list never repeats a day when the start bound is
day-aligned. -/
theorem daysInRange_nodup {s e : Nat} (hs : s % msPerDay = 0) :
    (daysInRange s e).Nodup := by
  rw [daysInRange_eq_of_aligned hs]
  split
  · refine List.Nodup.map ?_ (List.nodup_range _)
    intro a b h
    dsimp at h
    omega
  · exact List.nodup_nil

/-- For day-aligned bounds and dates, a record's day is scanned exactly
when its date lies in the inclusive range. -/
theorem mem_daysInRange_iff {s e t : Nat} (hs : s % msPerDay = 0)
    (ht : t % msPerDay = 0) :
    dayOf t ∈ daysInRange s e ↔ (s ≤ t ∧ t ≤ e) := by
  rw [daysInRange_eq_of_aligned hs]
  unfold dayOf
  unfold msPerDay at hs ht ⊢
  split
  · next hse =>
    simp only [List.mem_map, List.mem_range]
    constructor
    · rintro ⟨k, hk, heq⟩
      omega
    · rintro ⟨h1, h2⟩
      exact ⟨(t - s) / 86400000, by omega, by omega⟩
  · next hse =>
    simp only [List.not_mem_nil, false_iff]
    omega

/-- Under index consistency, resolving one day's bucket through the
document store yields, up to permutation, exactly the stored records
whose date falls on that day. -/
theorem bucket_resolve_perm (st : KVState) (hcons : KVIndexConsistent st) (d : Nat) :
    ((st.dateIndex d).filterMap (fun id => lookupKV st.docs id)).Perm
      ((st.docs.filter (fun pr => decide (dayOf pr.2.date = d))).map Prod.snd) := by
  obtain ⟨h1, h2, h3, h4⟩ := hcons
  have hkeysnd : ((st.docs.filter (fun pr => decide (dayOf pr.2.date = d))).map
      Prod.fst).Nodup :=
    List.Nodup.sublist (List.Sublist.map _ (List.filter_sublist _)) h4
  have hmemiff : ∀ id, id ∈ st.dateIndex d ↔
      id ∈ (st.docs.filter (fun pr => decide (dayOf pr.2.date = d))).map Prod.fst := by
    intro id
    constructor
    · intro hid
      obtain ⟨doc, hl, hd⟩ := h1 d id hid
      refine List.mem_map.mpr ⟨(id, doc), ?_, rfl⟩
      rw [List.mem_filter]
      exact ⟨lookupKV_mem hl, by simpa using hd⟩
    · intro hid
      obtain ⟨pr, hpr, hfst⟩ := List.mem_map.mp hid
      rw [List.mem_filter] at hpr
      have hday : dayOf pr.2.date = d := by simpa using hpr.2
      have hlk : lookupKV st.docs pr.1 = some pr.2 := mem_lookupKV h4 hpr.1
      rw [← hfst, ← hday]
      exact h2 pr.1 pr.2 hlk
  have hperm : (st.dateIndex d).Perm
      ((st.docs.filter (fun pr => decide (dayOf pr.2.date = d))).map Prod.fst) :=
    (List.perm_ext_iff_of_nodup (h3 d) hkeysnd).mpr hmemiff
  have step1 := hperm.filterMap (fun id => lookupKV st.docs id)
  have step2 : ((st.docs.filter (fun pr => decide (dayOf pr.2.date = d))).map
      Prod.fst).filterMap (fun id => lookupKV st.docs id) =
      (st.docs.filter (fun pr => decide (dayOf pr.2.date = d))).map Prod.snd := by
    rw [List.filterMap_map]
    apply filterMap_eq_map_of_forall
    intro pr hpr
    exact mem_lookupKV h4 (List.mem_of_mem_filter hpr)
  rw [step2] at step1
  exact step1

/-- Claim C2 is false on the code for the KV backend: after record `A` is
re-saved with its date moved from day 0 to day 1, a query for day 0 alone
returns the record although its date lies outside the range (the stale
day-0 bucket still resolves to it); and even with a consistent index, a
record stored 100 ms into day 0 is returned by a query over the later
interval [200, 300] of that day, so the returned set is not exactly the
in-range records. -/
theorem claim2_counterexample :
    (kvStale.getDocumentsByDateRange 0 0 = [docA1] ∧ ¬ docA1.date ≤ 0) ∧
    (kvB.getDocumentsByDateRange 200 300 = [docB] ∧ ¬ 200 ≤ docB.date) := by
  decide

/-- Claim C2 amended: the in-memory backend always returns exactly the
stored records with date in the inclusive range, sorted date-descending;
the KV backend does so provided the date index is consistent with the
store and all dates involved sit at day boundaries. -/
theorem claim2_amended :
    (∀ (st : InMemState) (s e : Nat),
        (st.getDocumentsByDateRange s e).Perm
          ((st.documents.map Prod.snd).filter
            (fun doc => decide (s ≤ doc.date) && decide (doc.date ≤ e))) ∧
        List.Sorted dateDesc (st.getDocumentsByDateRange s e)) ∧
    (∀ (st : KVState) (s e : Nat), KVIndexConsistent st → KVAligned st →
        s % msPerDay = 0 →
        (st.getDocumentsByDateRange s e).Perm
          ((st.docs.map Prod.snd).filter
            (fun doc => decide (s ≤ doc.date) && decide (doc.date ≤ e))) ∧
        List.Sorted dateDesc (st.getDocumentsByDateRange s e)) := by
  constructor
  · intro st s e
    exact ⟨List.perm_insertionSort dateDesc _, List.sorted_insertionSort dateDesc _⟩
  · intro st s e hcons halign hs
    refine ⟨?_, List.sorted_insertionSort dateDesc _⟩
    unfold KVState.getDocumentsByDateRange
    refine (List.perm_insertionSort dateDesc _).trans ?_
    refine (flatMap_perm_congr (fun d _ => bucket_resolve_perm st hcons d)).trans ?_
    have hpush : (daysInRange s e).flatMap
        (fun d => (st.docs.filter (fun pr => decide (dayOf pr.2.date = d))).map Prod.snd) =
        ((daysInRange s e).flatMap
          (fun d => st.docs.filter (fun pr => decide (dayOf pr.2.date = d)))).map Prod.snd :=
      (List.map_flatMap _ _ _).symm
    rw [hpush]
    refine ((flatMap_filter_key_perm (fun pr => dayOf pr.2.date) (daysInRange s e)
        (daysInRange_nodup hs) st.docs).map Prod.snd).trans ?_
    have hcongr : st.docs.filter (fun pr => decide (dayOf pr.2.date ∈ daysInRange s e)) =
        st.docs.filter (fun pr => decide (s ≤ pr.2.date) && decide (pr.2.date ≤ e)) := by
      apply List.filter_congr
      intro pr hpr
      have hal : pr.2.date % msPerDay = 0 := halign pr.2 (List.mem_map.mpr ⟨pr, hpr, rfl⟩)
      have hiff := mem_daysInRange_iff (e := e) hs hal
      have : decide (dayOf pr.2.date ∈ daysInRange s e) =
          decide (s ≤ pr.2.date ∧ pr.2.date ≤ e) := by
        rw [decide_eq_decide]
        exact hiff
      rw [this]
      simp
    rw [hcongr, List.filter_map]
    exact List.Perm.refl _

/-- Witness for claim C2 on a consistent, aligned one-record KV state. -/
theorem claim2_witness :
    (kvGood.getDocumentsByDateRange 0 0).Perm
      ((kvGood.docs.map Prod.snd).filter
        (fun doc => decide (0 ≤ doc.date) && decide (doc.date ≤ 0))) ∧
    List.Sorted dateDesc (kvGood.getDocumentsByDateRange 0 0) := by
  have hcons : KVIndexConsistent kvGood := by
    refine ⟨?_, ?_, ?_, ?_⟩
    · intro d id hid
      dsimp [kvGood] at hid
      split at hid
      · next hd =>
        rw [List.mem_singleton] at hid
        subst hid
        exact ⟨docA0, rfl, by simp [docA0, dayOf, hd]⟩
      · simp at hid
    · intro id doc hl
      dsimp [kvGood, lookupKV] at hl
      split at hl
      · next hk =>
        injection hl with hl
        subst hl
        subst hk
        simp [kvGood, docA0, dayOf]
      · cases hl
    · intro d
      dsimp [kvGood]
      split <;> simp
    · simp [kvGood]
  have halign : KVAligned kvGood := by
    intro doc hdoc
    simp [kvGood] at hdoc
    subst hdoc
    rfl
  exact claim2_amended.2 kvGood 0 0 hcons halign rfl

end MorningBrief
